import Mathlib

/-!
Shallow embedding of `src/ibtest/analysis/cointegration.py`.

Modelling conventions:
- Python floats are modelled by exact rationals `ℚ`; a float slot that may
  hold NaN (a missing value) is `Option ℚ`, with `none` for NaN.
- A pandas Series aligned over a time index is a list of
  `(timestamp, value)` pairs; a two-column DataFrame row is
  `(timestamp, Option ℚ × Option ℚ)`.
- The statsmodels routine `coint` is an external library call whose numeric
  output the module only forwards; it is modelled as a parameter
  (`Backend`), a total function from the two aligned value vectors to the
  reported statistic, p-value and critical values.
- `raise` is modelled by `Except`; printed console output by an explicit
  list of strings carried in the batch result.
-/

namespace Ibtest

abbrev Timestamp := Nat

/-- The three MacKinnon critical values keyed "1%", "5%", "10%" in the code. -/
structure CriticalValues where
  p1 : ℚ
  p5 : ℚ
  p10 : ℚ
deriving DecidableEq, Repr

/-- Container class `CointegrationResult` of the source, field for field. -/
structure CointegrationResult where
  symbol1 : String
  symbol2 : String
  cointegration_stat : ℚ
  p_value : ℚ
  critical_values : CriticalValues
  is_cointegrated : Bool
  hedge_ratio : ℚ
  spread_series : Option (List (Timestamp × ℚ))
deriving DecidableEq, Repr

/-- What `statsmodels.tsa.stattools.coint` returns: statistic, p-value and
the three critical values. -/
structure CointOut where
  stat : ℚ
  p_value : ℚ
  crit1 : ℚ
  crit5 : ℚ
  crit10 : ℚ
deriving DecidableEq, Repr

/-- The external statistical backend (`coint` applied to the two aligned
value vectors), treated as an opaque total numeric routine. -/
abbrev Backend := List ℚ → List ℚ → CointOut

/-- `ValueError("Insufficient data points ...")` raised by the tests. -/
inductive AnalysisError where
  | insufficientData (msg : String)
deriving DecidableEq, Repr

/-- `str(e)` for the modelled exception. -/
def AnalysisError.message : AnalysisError → String
  | .insufficientData m => m

/-- One row of `pd.DataFrame({symbol1: series1, symbol2: series2})` kept by
`.dropna()`: both values present. -/
def dropnaRow : Timestamp × Option ℚ × Option ℚ → Option (Timestamp × ℚ × ℚ)
  | (t, some a, some b) => some (t, a, b)
  | _ => none

/-- `pd.DataFrame({...}).dropna()`: keep exactly the rows where both
series have a value. -/
def dropna (rows : List (Timestamp × Option ℚ × Option ℚ)) :
    List (Timestamp × ℚ × ℚ) :=
  rows.filterMap dropnaRow

/-- Sum of pairwise products of two equally long vectors (Σ xᵢ·yᵢ). -/
def prodSum (x y : List ℚ) : ℚ := ((x.zip y).map (fun p => p.1 * p.2)).sum

/-- Determinant `n·Σx² − (Σx)²` of the 2×2 normal-equation system for the
regression of a response on `x` with an intercept. -/
def olsDenom (x : List ℚ) : ℚ :=
  (x.length : ℚ) * prodSum x x - x.sum ^ 2

/-- Slope coefficient of the OLS regression of `y` on `x` with an intercept
(`OLS(y, column_stack([ones, x])).fit().params[1]` in the source), written
in closed form by Cramer's rule; `olsSlope_normal_equations` below shows it
satisfies the least-squares normal equations whenever the system is
nonsingular. -/
def olsSlope (x y : List ℚ) : ℚ :=
  ((x.length : ℚ) * prodSum x y - x.sum * y.sum) / olsDenom x

/-- Intercept coefficient of the same regression (`params[0]`). -/
def olsAlpha (x y : List ℚ) : ℚ :=
  (y.sum - olsSlope x y * x.sum) / (x.length : ℚ)

/-- `CointegrationAnalyzer.test_cointegration`: align the two series (the
caller passes the outer-joined rows), drop rows with a missing value, fail
for fewer than 10 aligned observations, otherwise run the backend test,
compute the hedge ratio by OLS and the spread `y1 − hedge_ratio·y2`. -/
def test_cointegration (backend : Backend) (significance_level : ℚ)
    (rows : List (Timestamp × Option ℚ × Option ℚ)) (symbol1 symbol2 : String) :
    Except AnalysisError CointegrationResult :=
  let aligned := dropna rows
  if aligned.length < 10 then
    Except.error (AnalysisError.insufficientData
      "Insufficient data points for cointegration test")
  else
    let y1 := aligned.map (fun p => p.2.1)
    let y2 := aligned.map (fun p => p.2.2)
    let out := backend y1 y2
    let hedge_ratio := olsSlope y2 y1
    let spread := aligned.map (fun p => (p.1, p.2.1 - hedge_ratio * p.2.2))
    Except.ok
      { symbol1 := symbol1
        symbol2 := symbol2
        cointegration_stat := out.stat
        p_value := out.p_value
        critical_values := { p1 := out.crit1, p5 := out.crit5, p10 := out.crit10 }
        is_cointegrated := decide (out.p_value < significance_level)
        hedge_ratio := hedge_ratio
        spread_series := some spread }

/-- The aligned price matrix handed to `analyze_pairs`: a shared time index
and one named column of optional values (same length as the index) per
symbol. -/
structure PriceMatrix where
  index : List Timestamp
  cols : List (String × List (Option ℚ))
deriving DecidableEq, Repr

/-- `itertools.combinations(symbols, 2)`: every unordered pair once, the
earlier element first, in the iteration order of the input list. -/
def combinations2 {α : Type} : List α → List (α × α)
  | [] => []
  | x :: xs => (xs.map (fun y => (x, y))) ++ combinations2 xs

/-- The two-column frame `pd.DataFrame({s1: series1, s2: series2})` for two
columns of the same matrix: both series share the matrix index. -/
def alignPair (idx : List Timestamp) (v1 v2 : List (Option ℚ)) :
    List (Timestamp × Option ℚ × Option ℚ) :=
  idx.zip (v1.zip v2)

/-- The body of the `analyze_pairs` loop for one pair of columns. -/
def pairTest (backend : Backend) (sl : ℚ) (idx : List Timestamp)
    (p : (String × List (Option ℚ)) × (String × List (Option ℚ))) :
    Except AnalysisError CointegrationResult :=
  test_cointegration backend sl (alignPair idx p.1.2 p.2.2) p.1.1 p.2.1

/-- The console line `print(f"Error testing {symbol1}-{symbol2}: {e}")`. -/
def failLine (s1 s2 msg : String) : String :=
  "Error testing " ++ s1 ++ "-" ++ s2 ++ ": " ++ msg

/-- The `for symbol1, symbol2 in combinations(...)` loop: collect the
successful results and the printed error lines, in iteration order. -/
def analyzeLoop (backend : Backend) (sl : ℚ) (idx : List Timestamp) :
    List ((String × List (Option ℚ)) × (String × List (Option ℚ))) →
      List CointegrationResult × List String
  | [] => ([], [])
  | p :: rest =>
    let tail := analyzeLoop backend sl idx rest
    match pairTest backend sl idx p with
    | Except.ok r => (r :: tail.1, tail.2)
    | Except.error e => (tail.1, failLine p.1.1 p.2.1 e.message :: tail.2)

/-- What a call to `analyze_pairs` produces: the returned list of results,
the lines printed to stdout (a side channel, not part of the return value),
and whether the too-few-rows warning was emitted. -/
structure AnalyzeOutput where
  results : List CointegrationResult
  printed : List String
  warned : Bool
deriving DecidableEq, Repr

/-- `CointegrationAnalyzer.analyze_pairs`: warn (non-fatally) when the
matrix has fewer rows than `min_observations`, then test every pair of
columns, skipping (and printing) per-pair failures. -/
def analyze_pairs (backend : Backend) (sl : ℚ) (price_data : PriceMatrix)
    (min_observations : Nat) : AnalyzeOutput :=
  let pairs := combinations2 price_data.cols
  let out := analyzeLoop backend sl price_data.index pairs
  { results := out.1
    printed := out.2
    warned := decide (price_data.index.length < min_observations) }

/-- Stable insertion into a list already processed: the new element `x`
(which came earlier in the original list) goes before the first element
whose key is not smaller, so elements with equal keys keep their original
relative order. -/
def insertByKey {α : Type} (key : α → ℚ) (x : α) : List α → List α
  | [] => [x]
  | y :: ys => if key y < key x then y :: insertByKey key x ys else x :: y :: ys

/-- A stable sort by a rational key. Python's `list.sort(key=...)` is
stable, and a stable comparison sort's output is determined by the key
alone, so this insertion sort produces the same list. -/
def sortByKey {α : Type} (key : α → ℚ) : List α → List α
  | [] => []
  | x :: xs => insertByKey key x (sortByKey key xs)

/-- `CointegrationAnalyzer.filter_cointegrated_pairs`: the effective
threshold is `p_value_threshold or self.significance_level` — Python's
`or` falls back on any falsy value, so an explicit `0.0` behaves like
`None` — then keep `p_value < threshold` and sort ascending by p-value. -/
def filter_cointegrated_pairs (significance_level : ℚ)
    (results : List CointegrationResult) (p_value_threshold : Option ℚ) :
    List CointegrationResult :=
  let threshold :=
    match p_value_threshold with
    | none => significance_level
    | some t => if t = 0 then significance_level else t
  let cointegrated := results.filter (fun r => decide (r.p_value < threshold))
  sortByKey (fun r => r.p_value) cointegrated

/-- One entry of `summary_data` in `create_summary_report`; the `Critical`
fields carry the columns named "Critical_1%", "Critical_5%",
"Critical_10%". -/
structure SummaryRow where
  Symbol1 : String
  Symbol2 : String
  P_Value : ℚ
  Cointegration_Stat : ℚ
  Hedge_Ratio : ℚ
  Is_Cointegrated : Bool
  Critical_1 : ℚ
  Critical_5 : ℚ
  Critical_10 : ℚ
deriving DecidableEq, Repr

/-- A pandas DataFrame as the report uses it: its column labels and its
rows. `pd.DataFrame()` is `{ columns := [], rows := [] }`. -/
structure DataFrame where
  columns : List String
  rows : List SummaryRow
deriving DecidableEq, Repr

/-- The column labels of a non-empty summary report, in insertion order of
the row dictionaries. -/
def summaryColumns : List String :=
  ["Symbol1", "Symbol2", "P_Value", "Cointegration_Stat", "Hedge_Ratio",
   "Is_Cointegrated", "Critical_1%", "Critical_5%", "Critical_10%"]

/-- The dictionary appended to `summary_data` for one result. -/
def resultToRow (r : CointegrationResult) : SummaryRow :=
  { Symbol1 := r.symbol1
    Symbol2 := r.symbol2
    P_Value := r.p_value
    Cointegration_Stat := r.cointegration_stat
    Hedge_Ratio := r.hedge_ratio
    Is_Cointegrated := r.is_cointegrated
    Critical_1 := r.critical_values.p1
    Critical_5 := r.critical_values.p5
    Critical_10 := r.critical_values.p10 }

/-- The `filtered_results` local of `create_summary_report`. -/
def summaryInput (significance_level : ℚ) (results : List CointegrationResult)
    (include_all : Bool) : List CointegrationResult :=
  if include_all then results
  else filter_cointegrated_pairs significance_level results none

/-- `CointegrationAnalyzer.create_summary_report`: an empty filtered list
yields the bare `pd.DataFrame()` (no rows and no columns); otherwise one
row per result, sorted ascending by `P_Value`. -/
def create_summary_report (significance_level : ℚ)
    (results : List CointegrationResult) (include_all : Bool) : DataFrame :=
  let filtered_results := summaryInput significance_level results include_all
  if filtered_results.isEmpty then { columns := [], rows := [] }
  else
    { columns := summaryColumns
      rows := sortByKey (fun row => row.P_Value) (filtered_results.map resultToRow) }

/-- The IEEE value of the float expression `num / std`, where `std` is the
(possibly NaN, possibly zero) standard deviation whose square is `std2`.
`val num std2` stands for the real number `num / sqrt std2` with
`std2 > 0`; the square is kept because the square root is irrational in
general. Division by NaN gives NaN; `0.0/0.0` gives NaN; a nonzero
numerator over `0.0` gives a signed infinity. -/
inductive ZVal where
  | val (num : ℚ) (std2 : ℚ)
  | nan
  | posInf
  | negInf
deriving DecidableEq, Repr

/-- Float division of `num` by the square root of `std2` (`none` = NaN). -/
def floatDiv (num : ℚ) (std2 : Option ℚ) : ZVal :=
  match std2 with
  | none => ZVal.nan
  | some v =>
    if v = 0 then
      if num = 0 then ZVal.nan else if 0 < num then ZVal.posInf else ZVal.negInf
    else ZVal.val num v

/-- The dictionary returned by `get_spread_statistics`. `std2` is the
square of the reported `std` (pandas sample standard deviation, `none` when
it is NaN, i.e. for fewer than two observations). -/
structure SpreadStats where
  mean : Option ℚ
  std2 : Option ℚ
  min : Option ℚ
  max : Option ℚ
  current : Option ℚ
  z_score : ZVal
deriving DecidableEq, Repr

/-- `spread.mean()`: NaN on an empty series. -/
def listMean (l : List ℚ) : Option ℚ :=
  if l.isEmpty then none else some (l.sum / (l.length : ℚ))

/-- The square of `spread.std()`: the pandas sample variance with `ddof=1`
(`Σ(v − mean)² / (n − 1)`), NaN for fewer than two observations. -/
def sampleVar (l : List ℚ) : Option ℚ :=
  if l.length < 2 then none
  else some ((l.map (fun v => (v - l.sum / (l.length : ℚ)) ^ 2)).sum /
    ((l.length : ℚ) - 1))

/-- `spread.min()`: NaN on an empty series. -/
def listMin : List ℚ → Option ℚ
  | [] => none
  | x :: xs =>
    match listMin xs with
    | none => some x
    | some m => some (min x m)

/-- `spread.max()`: NaN on an empty series. -/
def listMax : List ℚ → Option ℚ
  | [] => none
  | x :: xs =>
    match listMax xs with
    | none => some x
    | some m => some (max x m)

/-- `CointegrationAnalyzer.get_spread_statistics`: `{}` (here `none`) when
the spread is absent, otherwise the statistics dictionary; the values are
rationals in this model so the `.dropna()` on the spread drops nothing.
The degenerate cases produce NaN values inside the dictionary — the
function itself never raises. -/
def get_spread_statistics (result : CointegrationResult) : Option SpreadStats :=
  match result.spread_series with
  | none => none
  | some s =>
    let spread := s.map (fun p => p.2)
    some
      { mean := listMean spread
        std2 := sampleVar spread
        min := listMin spread
        max := listMax spread
        current := spread.getLast?
        z_score :=
          match spread.getLast?, listMean spread with
          | some last, some m => floatDiv (last - m) (sampleVar spread)
          | _, _ => ZVal.nan }

/-- `ImportError` raised by `CointegrationAnalyzer.__init__` when
statsmodels is missing. -/
inductive InitError where
  | importError (msg : String)
deriving DecidableEq, Repr

/-- The analyzer object: its only configuration is `significance_level`. -/
structure CointegrationAnalyzer where
  significance_level : ℚ
deriving DecidableEq, Repr

/-- `CointegrationAnalyzer.__init__`: fails when the statsmodels backend is
unavailable and otherwise stores `significance_level` unchecked. -/
def CointegrationAnalyzer.init (statsmodels_available : Bool)
    (significance_level : ℚ) : Except InitError CointegrationAnalyzer :=
  if statsmodels_available then
    Except.ok { significance_level := significance_level }
  else
    Except.error (InitError.importError
      ("statsmodels is required for cointegration analysis. " ++
        "Install with: pip install statsmodels"))

/-! Specification-side definitions: independent restatements of properties
claimed by the spec, to be compared with the embedded operations. -/

/-- The pair order the spec describes: for every position `i`, in order,
the pairs `(l[i], l[j])` for every position `j > i`, in order. -/
def pairsSpec {α : Type} [Inhabited α] (l : List α) : List (α × α) :=
  ((List.range l.length).map (fun i =>
    ((List.range l.length).drop (i + 1)).map
      (fun j => (l.getD i default, l.getD j default)))).flatten

/-- The aligned response vector `y1` of `test_cointegration` (series 1). -/
def y1of (rows : List (Timestamp × Option ℚ × Option ℚ)) : List ℚ :=
  (dropna rows).map (fun p => p.2.1)

/-- The aligned regressor vector `y2` of `test_cointegration` (series 2). -/
def y2of (rows : List (Timestamp × Option ℚ × Option ℚ)) : List ℚ :=
  (dropna rows).map (fun p => p.2.2)

/-- What the spec asserts about a successful test's spread and hedge ratio:
the spread is `series1 − hedge_ratio·series2` over the aligned index, that
index is a subsequence of the input index (rows dropped only where a value
was missing, and no missing values remain — the spread's values are total
rationals here), and the hedge ratio is the OLS slope of series 1 on
series 2 with an intercept, witnessed by the least-squares normal
equations whenever the normal system is nonsingular. -/
def testPairSpreadSpec (rows : List (Timestamp × Option ℚ × Option ℚ))
    (r : CointegrationResult) : Prop :=
  r.spread_series = some ((dropna rows).map
      (fun p => (p.1, p.2.1 - r.hedge_ratio * p.2.2))) ∧
  ((dropna rows).map Prod.fst).Sublist (rows.map Prod.fst) ∧
  r.hedge_ratio = olsSlope (y2of rows) (y1of rows) ∧
  (olsDenom (y2of rows) ≠ 0 →
    (((y2of rows).zip (y1of rows)).map
        (fun q => q.2 - (olsAlpha (y2of rows) (y1of rows) +
          r.hedge_ratio * q.1))).sum = 0 ∧
    (((y2of rows).zip (y1of rows)).map
        (fun q => q.1 * (q.2 - (olsAlpha (y2of rows) (y1of rows) +
          r.hedge_ratio * q.1)))).sum = 0)

/-- The values of a spread series, in index order. -/
def spreadVals (s : List (Timestamp × ℚ)) : List ℚ := s.map (fun p => p.2)

/-- What holds of `get_spread_statistics` on a present, non-empty spread:
a statistics dictionary is returned (never an error) whose mean is the
arithmetic mean, whose squared standard deviation is the sample (not
population) variance written here in the independent `(n·Σv² − S²)`
closed form with the `n·(n−1)` denominator, whose min/max are attained
bounds, whose current value is the last, and whose z-score is the float
quotient `(last − mean)/std` — in particular NaN, not an error, when the
variance is zero. -/
def spreadStatsSpec (r : CointegrationResult) (s : List (Timestamp × ℚ)) : Prop :=
  ∃ st, get_spread_statistics r = some st ∧
    st.mean = some ((spreadVals s).sum / ((spreadVals s).length : ℚ)) ∧
    (2 ≤ (spreadVals s).length → st.std2 =
      some ((((spreadVals s).length : ℚ) * ((spreadVals s).map (fun v => v * v)).sum -
          (spreadVals s).sum ^ 2) /
        (((spreadVals s).length : ℚ) * (((spreadVals s).length : ℚ) - 1)))) ∧
    (∃ m, st.min = some m ∧ m ∈ spreadVals s ∧ ∀ v ∈ spreadVals s, m ≤ v) ∧
    (∃ M, st.max = some M ∧ M ∈ spreadVals s ∧ ∀ v ∈ spreadVals s, v ≤ M) ∧
    st.current = (spreadVals s).getLast? ∧
    (∀ last m, (spreadVals s).getLast? = some last → st.mean = some m →
      st.z_score = floatDiv (last - m) st.std2) ∧
    (st.std2 = some 0 → st.z_score = ZVal.nan)

/-- What the spec asserts of `filter_cointegrated_pairs`: the output is
exactly the subset with `p_value` below the effective threshold (the given
one, or the configured significance level when none is given), sorted
ascending by `p_value`, stably — elements of equal `p_value` keep their
original relative order, stated as: filtering the output by any fixed
`p_value` returns the same list as filtering the input subset. -/
def filterSpecHolds (sl : ℚ) (results : List CointegrationResult)
    (tOpt : Option ℚ) : Prop :=
  (filter_cointegrated_pairs sl results tOpt).Perm
      (results.filter (fun r => decide (r.p_value < tOpt.getD sl))) ∧
  (filter_cointegrated_pairs sl results tOpt).Pairwise
      (fun a b => a.p_value ≤ b.p_value) ∧
  ∀ v, (filter_cointegrated_pairs sl results tOpt).filter
        (fun r => decide (r.p_value = v)) =
      (results.filter (fun r => decide (r.p_value < tOpt.getD sl))).filter
        (fun r => decide (r.p_value = v))

/-! Concrete inputs for witnesses and counterexamples. -/

/-- A result literal with the given symbols and p-value. -/
def mkRes (s1 s2 : String) (p : ℚ) : CointegrationResult :=
  { symbol1 := s1
    symbol2 := s2
    cointegration_stat := 0
    p_value := p
    critical_values := { p1 := 0, p5 := 0, p10 := 0 }
    is_cointegrated := false
    hedge_ratio := 1
    spread_series := none }

/-- A constant statistical backend standing in for `coint`. -/
def cBackend : Backend := fun _ _ =>
  { stat := -3, p_value := 0, crit1 := -4, crit5 := -3, crit10 := -3 }

/-- Ten fully observed rows with `series1 = 2·series2`. -/
def rowsW : List (Timestamp × Option ℚ × Option ℚ) :=
  [(0, some 2, some 1), (1, some 4, some 2), (2, some 6, some 3),
   (3, some 8, some 4), (4, some 10, some 5), (5, some 12, some 6),
   (6, some 14, some 7), (7, some 16, some 8), (8, some 18, some 9),
   (9, some 20, some 10)]

/-- Nine fully observed rows (one below the floor). -/
def rowsShort : List (Timestamp × Option ℚ × Option ℚ) :=
  [(0, some 2, some 1), (1, some 4, some 2), (2, some 6, some 3),
   (3, some 8, some 4), (4, some 10, some 5), (5, some 12, some 6),
   (6, some 14, some 7), (7, some 16, some 8), (8, some 18, some 9)]

/-- The result `test_cointegration cBackend 1 rowsW "A" "B"` returns. -/
def resW : CointegrationResult :=
  { symbol1 := "A"
    symbol2 := "B"
    cointegration_stat := -3
    p_value := 0
    critical_values := { p1 := -4, p5 := -3, p10 := -3 }
    is_cointegrated := true
    hedge_ratio := 2
    spread_series := some [(0, 0), (1, 0), (2, 0), (3, 0), (4, 0),
      (5, 0), (6, 0), (7, 0), (8, 0), (9, 0)] }

/-- A short non-degenerate spread. -/
def spreadW : List (Timestamp × ℚ) := [(0, 1), (1, 2), (2, 3)]

/-- A result carrying `spreadW`. -/
def resW6 : CointegrationResult :=
  { mkRes "A" "B" 0 with spread_series := some spreadW }

/-- A result with a constant (zero-variance) spread. -/
def resConst : CointegrationResult :=
  { mkRes "A" "B" 0 with spread_series := some [(0, 5), (1, 5), (2, 5)] }

/-- A three-column price matrix in which column "C" is entirely missing, so
the pairs (A, C) and (B, C) fail while (A, B) succeeds. -/
def pmW : PriceMatrix :=
  { index := [0, 1, 2, 3, 4, 5, 6, 7, 8, 9]
    cols := [("A", [some 1, some 2, some 3, some 4, some 5, some 6, some 7,
                some 8, some 9, some 10]),
             ("B", [some 2, some 4, some 6, some 8, some 10, some 12, some 14,
                some 16, some 18, some 20]),
             ("C", [none, none, none, none, none, none, none, none, none, none])] }

end Ibtest

deriving instance DecidableEq for Except

namespace Ibtest

/-! Helper lemmas about sums. -/

theorem sum_map_add {α : Type} (l : List α) (f g : α → ℚ) :
    (l.map (fun a => f a + g a)).sum = (l.map f).sum + (l.map g).sum := by
  induction l with
  | nil => simp
  | cons x xs ih => simp [ih]; ring

theorem sum_map_sub {α : Type} (l : List α) (f g : α → ℚ) :
    (l.map (fun a => f a - g a)).sum = (l.map f).sum - (l.map g).sum := by
  induction l with
  | nil => simp
  | cons x xs ih => simp [ih]; ring

theorem sum_map_mul_left {α : Type} (l : List α) (c : ℚ) (f : α → ℚ) :
    (l.map (fun a => c * f a)).sum = c * (l.map f).sum := by
  induction l with
  | nil => simp
  | cons x xs ih => simp [ih]; ring

theorem sum_map_const {α : Type} (l : List α) (c : ℚ) :
    (l.map (fun _ => c)).sum = (l.length : ℚ) * c := by
  induction l with
  | nil => simp
  | cons x xs ih => simp [ih]; ring

theorem prodSum_self (x : List ℚ) :
    prodSum x x = (x.map (fun v => v * v)).sum := by
  induction x with
  | nil => rfl
  | cons v vs ih => simp [prodSum, List.zip_cons_cons] at ih ⊢; exact ih

theorem sum_sq_eq_zero {α : Type} (l : List α) (f : α → ℚ)
    (h : (l.map (fun a => f a ^ 2)).sum = 0) : ∀ a ∈ l, f a = 0 := by
  induction l with
  | nil => simp
  | cons x xs ih =>
    have hx : (0 : ℚ) ≤ f x ^ 2 := sq_nonneg _
    have hrest : (0 : ℚ) ≤ (xs.map (fun a => f a ^ 2)).sum := by
      apply List.sum_nonneg
      intro v hv
      obtain ⟨a, _, rfl⟩ := List.mem_map.mp hv
      exact sq_nonneg _
    simp only [List.map_cons, List.sum_cons] at h
    have hx0 : f x ^ 2 = 0 := by linarith
    have hxs : (xs.map (fun a => f a ^ 2)).sum = 0 := by linarith
    intro a ha
    rcases List.mem_cons.mp ha with rfl | ha
    · exact pow_eq_zero_iff (two_ne_zero) |>.mp hx0
    · exact ih hxs a ha

/-! Helper lemmas about the stable sort. -/

theorem insertByKey_perm {α : Type} (key : α → ℚ) (x : α) (l : List α) :
    (insertByKey key x l).Perm (x :: l) := by
  induction l with
  | nil => simp [insertByKey]
  | cons y ys ih =>
    by_cases h : key y < key x
    · simp only [insertByKey, if_pos h]
      exact (ih.cons y).trans (List.Perm.swap x y ys)
    · simp [insertByKey, if_neg h]

theorem sortByKey_perm {α : Type} (key : α → ℚ) (l : List α) :
    (sortByKey key l).Perm l := by
  induction l with
  | nil => simp [sortByKey]
  | cons x xs ih =>
    exact (insertByKey_perm key x (sortByKey key xs)).trans (ih.cons x)

theorem insertByKey_pairwise {α : Type} (key : α → ℚ) (x : α) (l : List α)
    (h : l.Pairwise (fun a b => key a ≤ key b)) :
    (insertByKey key x l).Pairwise (fun a b => key a ≤ key b) := by
  induction l with
  | nil => simp [insertByKey]
  | cons y ys ih =>
    rw [List.pairwise_cons] at h
    by_cases hlt : key y < key x
    · simp only [insertByKey, if_pos hlt]
      rw [List.pairwise_cons]
      constructor
      · intro a ha
        have := (insertByKey_perm key x ys).mem_iff.mp ha
        rcases List.mem_cons.mp this with rfl | hmem
        · exact le_of_lt hlt
        · exact h.1 a hmem
      · exact ih h.2
    · simp only [insertByKey, if_neg hlt]
      rw [List.pairwise_cons]
      refine ⟨?_, List.pairwise_cons.mpr h⟩
      intro a ha
      rcases List.mem_cons.mp ha with rfl | hmem
      · exact le_of_not_lt hlt
      · exact le_trans (le_of_not_lt hlt) (h.1 a hmem)

theorem sortByKey_pairwise {α : Type} (key : α → ℚ) (l : List α) :
    (sortByKey key l).Pairwise (fun a b => key a ≤ key b) := by
  induction l with
  | nil => simp [sortByKey]
  | cons x xs ih => exact insertByKey_pairwise key x (sortByKey key xs) ih

theorem insertByKey_filter_key {α : Type} (key : α → ℚ) (x : α) (l : List α) (v : ℚ) :
    (insertByKey key x l).filter (fun a => decide (key a = v)) =
      if key x = v then x :: l.filter (fun a => decide (key a = v))
      else l.filter (fun a => decide (key a = v)) := by
  induction l with
  | nil => by_cases h : key x = v <;> simp [insertByKey, h]
  | cons y ys ih =>
    by_cases hlt : key y < key x
    · simp only [insertByKey, if_pos hlt]
      by_cases hy : key y = v
      · have hx : ¬ key x = v := by
          intro hx
          rw [hx, ← hy] at hlt
          exact lt_irrefl _ hlt
        simp [List.filter_cons, hy, hx, ih]
      · by_cases hx : key x = v <;> simp [List.filter_cons, hy, hx, ih]
    · simp only [insertByKey, if_neg hlt]
      by_cases hx : key x = v <;> simp [List.filter_cons, hx]

theorem sortByKey_filter_key {α : Type} (key : α → ℚ) (l : List α) (v : ℚ) :
    (sortByKey key l).filter (fun a => decide (key a = v)) =
      l.filter (fun a => decide (key a = v)) := by
  induction l with
  | nil => simp [sortByKey]
  | cons x xs ih =>
    rw [sortByKey, insertByKey_filter_key]
    by_cases hx : key x = v <;> simp [List.filter_cons, hx, ih]

/-! Helper lemmas about pair enumeration. -/

theorem combinations2_length_choose {α : Type} (l : List α) :
    (combinations2 l).length = l.length.choose 2 := by
  induction l with
  | nil => simp [combinations2]
  | cons x xs ih =>
    simp only [combinations2, List.length_append, List.length_map, ih,
      List.length_cons, Nat.choose_succ_succ, Nat.choose_one_right]

theorem combinations2_map {α β : Type} (f : α → β) (l : List α) :
    combinations2 (l.map f) = (combinations2 l).map (fun p => (f p.1, f p.2)) := by
  induction l with
  | nil => simp [combinations2]
  | cons x xs ih => simp [combinations2, ih, List.map_map, Function.comp]

theorem getD_range_map {α : Type} [Inhabited α] (l : List α) :
    (List.range l.length).map (fun j => l.getD j default) = l := by
  apply List.ext_getElem
  · simp
  · intro n h1 h2
    simp only [List.getElem_map, List.getElem_range]
    exact List.getD_eq_getElem l default h2

theorem combinations2_eq_pairsSpec {α : Type} [Inhabited α] (l : List α) :
    combinations2 l = pairsSpec l := by
  induction l with
  | nil => simp [combinations2, pairsSpec]
  | cons x xs ih =>
    rw [combinations2, ih]
    unfold pairsSpec
    rw [List.length_cons, List.range_succ_eq_map, List.map_cons,
      List.flatten_cons]
    have hhead : ((0 :: List.map Nat.succ (List.range xs.length)).drop (0 + 1)).map
        (fun j => ((x :: xs).getD 0 default, (x :: xs).getD j default)) =
          xs.map (fun y => (x, y)) := by
      rw [List.drop_succ_cons, List.drop_zero, List.map_map]
      have hfun : ((fun j => ((x :: xs).getD 0 default, (x :: xs).getD j default)) ∘
          Nat.succ) = ((fun y => (x, y)) ∘ (fun j => xs.getD j default)) := by
        funext j
        simp [List.getD_cons_succ]
      rw [hfun, ← List.map_map, getD_range_map]
    have htail : (List.map Nat.succ (List.range xs.length)).map
        (fun i => ((0 :: List.map Nat.succ (List.range xs.length)).drop (i + 1)).map
          (fun j => ((x :: xs).getD i default, (x :: xs).getD j default))) =
          (List.range xs.length).map (fun i => ((List.range xs.length).drop (i + 1)).map
            (fun j => (xs.getD i default, xs.getD j default))) := by
      rw [List.map_map]
      apply List.map_congr_left
      intro i _
      simp only [Function.comp_apply, List.drop_succ_cons, List.getD_cons_succ,
        ← List.map_drop, List.map_map]
      rfl
    rw [hhead, htail]

/-! Helper lemmas about the batch loop. -/

theorem analyzeLoop_eq (backend : Backend) (sl : ℚ) (idx : List Timestamp)
    (pairs : List ((String × List (Option ℚ)) × (String × List (Option ℚ)))) :
    analyzeLoop backend sl idx pairs =
      (pairs.filterMap (fun p => (pairTest backend sl idx p).toOption),
       pairs.filterMap (fun p =>
         match pairTest backend sl idx p with
         | Except.ok _ => none
         | Except.error e => some (failLine p.1.1 p.2.1 e.message))) := by
  induction pairs with
  | nil => simp [analyzeLoop]
  | cons p rest ih =>
    rw [analyzeLoop, ih]
    cases h : pairTest backend sl idx p <;>
      simp [List.filterMap_cons, h, Except.toOption]

/-! Helper lemmas about list minima, maxima and last elements. -/

theorem listMin_spec (l : List ℚ) (h : l ≠ []) :
    ∃ m, listMin l = some m ∧ m ∈ l ∧ ∀ v ∈ l, m ≤ v := by
  induction l with
  | nil => exact absurd rfl h
  | cons x xs ih =>
    by_cases hxs : xs = []
    · subst hxs
      exact ⟨x, by simp [listMin], by simp, by simp⟩
    · obtain ⟨m, hm, hmem, hle⟩ := ih hxs
      refine ⟨min x m, ?_, ?_, ?_⟩
      · simp [listMin, hm]
      · rcases le_total x m with hc | hc
        · simp [min_eq_left hc]
        · rw [min_eq_right hc]
          exact List.mem_cons_of_mem x hmem
      · intro v hv
        rcases List.mem_cons.mp hv with rfl | hv
        · exact min_le_left _ _
        · exact le_trans (min_le_right _ _) (hle v hv)

theorem listMax_spec (l : List ℚ) (h : l ≠ []) :
    ∃ m, listMax l = some m ∧ m ∈ l ∧ ∀ v ∈ l, v ≤ m := by
  induction l with
  | nil => exact absurd rfl h
  | cons x xs ih =>
    by_cases hxs : xs = []
    · subst hxs
      exact ⟨x, by simp [listMax], by simp, by simp⟩
    · obtain ⟨m, hm, hmem, hle⟩ := ih hxs
      refine ⟨max x m, ?_, ?_, ?_⟩
      · simp [listMax, hm]
      · rcases le_total x m with hc | hc
        · rw [max_eq_right hc]
          exact List.mem_cons_of_mem x hmem
        · simp [max_eq_left hc]
      · intro v hv
        rcases List.mem_cons.mp hv with rfl | hv
        · exact le_max_left _ _
        · exact le_trans (hle v hv) (le_max_right _ _)

/-! Helper lemma: the dropped-NaN index is a subsequence of the input index. -/

theorem dropna_index_sublist (rows : List (Timestamp × Option ℚ × Option ℚ)) :
    ((dropna rows).map Prod.fst).Sublist (rows.map Prod.fst) := by
  induction rows with
  | nil => simp [dropna]
  | cons r rest ih =>
    obtain ⟨t, a, b⟩ := r
    cases a <;> cases b <;>
      simp only [dropna, List.filterMap_cons, dropnaRow, List.map_cons] <;>
      first
        | exact ih.cons t
        | exact ih.cons₂ t

/-! Helper lemma: the closed-form OLS coefficients satisfy the least-squares
normal equations whenever the 2×2 system is nonsingular. -/

theorem olsSlope_normal_equations (x y : List ℚ) (hlen : x.length = y.length)
    (hd : olsDenom x ≠ 0) :
    ((x.zip y).map (fun p => p.2 - (olsAlpha x y + olsSlope x y * p.1))).sum = 0 ∧
    ((x.zip y).map (fun p => p.1 * (p.2 - (olsAlpha x y + olsSlope x y * p.1)))).sum = 0 := by
  have hn : (x.length : ℚ) ≠ 0 := by
    intro h0
    apply hd
    have hx : x = [] := List.length_eq_zero.mp (by exact_mod_cast h0)
    subst hx
    simp [olsDenom, prodSum]
  have hfst : ((x.zip y).map (fun p => p.1)).sum = x.sum := by
    rw [show (fun p : ℚ × ℚ => p.1) = Prod.fst from rfl,
      List.map_fst_zip x y (le_of_eq hlen)]
  have hsnd : ((x.zip y).map (fun p => p.2)).sum = y.sum := by
    rw [show (fun p : ℚ × ℚ => p.2) = Prod.snd from rfl,
      List.map_snd_zip x y (le_of_eq hlen.symm)]
  have hsq : ((x.zip y).map (fun p => p.1 * p.1)).sum = prodSum x x := by
    rw [show (fun p : ℚ × ℚ => p.1 * p.1) =
        ((fun v => v * v) ∘ Prod.fst) from rfl, ← List.map_map,
      List.map_fst_zip x y (le_of_eq hlen), ← prodSum_self]
  have hxy : ((x.zip y).map (fun p => p.1 * p.2)).sum = prodSum x y := rfl
  have hzlen : ((x.zip y).length : ℚ) = (x.length : ℚ) := by
    rw [List.length_zip, hlen, min_self]
  constructor
  · have he : (fun p : ℚ × ℚ => p.2 - (olsAlpha x y + olsSlope x y * p.1)) =
        (fun p : ℚ × ℚ => p.2 - (olsAlpha x y + olsSlope x y * p.1)) := rfl
    rw [sum_map_sub, sum_map_add, sum_map_const, sum_map_mul_left, hsnd, hfst,
      hzlen]
    unfold olsAlpha
    field_simp
  · have he : (fun p : ℚ × ℚ => p.1 * (p.2 - (olsAlpha x y + olsSlope x y * p.1))) =
        (fun p : ℚ × ℚ => p.1 * p.2 -
          (olsAlpha x y * p.1 + olsSlope x y * (p.1 * p.1))) := by
      funext p
      ring
    rw [he, sum_map_sub, sum_map_add, sum_map_mul_left, sum_map_mul_left, hxy,
      hfst, hsq]
    unfold olsDenom at hd
    unfold olsAlpha olsSlope olsDenom
    field_simp
    ring

/-! Helper lemmas about the sample variance. -/

theorem sampleVar_eq (l : List ℚ) (h2 : 2 ≤ l.length) :
    sampleVar l = some (((l.length : ℚ) * (l.map (fun v => v * v)).sum - l.sum ^ 2) /
      ((l.length : ℚ) * ((l.length : ℚ) - 1))) := by
  have hn : (l.length : ℚ) ≠ 0 := by
    have : (2 : ℚ) ≤ (l.length : ℚ) := by exact_mod_cast h2
    linarith
  have hn1 : (l.length : ℚ) - 1 ≠ 0 := by
    have : (2 : ℚ) ≤ (l.length : ℚ) := by exact_mod_cast h2
    linarith
  unfold sampleVar
  rw [if_neg (by omega)]
  congr 1
  have hexp : (fun v : ℚ => (v - l.sum / (l.length : ℚ)) ^ 2) =
      (fun v : ℚ => (v * v - (2 * (l.sum / (l.length : ℚ))) * v) +
        (l.sum / (l.length : ℚ)) * (l.sum / (l.length : ℚ))) := by
    funext v
    ring
  rw [hexp, sum_map_add, sum_map_sub, sum_map_mul_left, sum_map_const]
  field_simp
  ring

theorem sampleVar_zero_all_eq_mean (l : List ℚ) (h : sampleVar l = some 0) :
    ∀ v ∈ l, v = l.sum / (l.length : ℚ) := by
  unfold sampleVar at h
  by_cases hlt : l.length < 2
  · rw [if_pos hlt] at h
    exact absurd h (by simp)
  · rw [if_neg hlt] at h
    have hn1 : (l.length : ℚ) - 1 ≠ 0 := by
      have : (2 : ℚ) ≤ (l.length : ℚ) := by exact_mod_cast Nat.le_of_not_lt hlt
      linarith
    have hsum : (l.map (fun v => (v - l.sum / (l.length : ℚ)) ^ 2)).sum = 0 := by
      have hq := Option.some.inj h
      rcases div_eq_zero_iff.mp hq with h0 | h0
      · exact h0
      · exact absurd h0 hn1
    intro v hv
    have := sum_sq_eq_zero l (fun v => v - l.sum / (l.length : ℚ)) hsum v hv
    linarith

theorem combinations2_nil_of_short {α : Type} (l : List α) (h : l.length < 2) :
    combinations2 l = [] := by
  match l with
  | [] => rfl
  | [x] => rfl
  | x :: y :: xs =>
    simp only [List.length_cons] at h
    omega

/-! The claims. -/

/-- C1: `test_cointegration` fails with the insufficient-data error exactly
when fewer than 10 observations remain after aligning the two series and
dropping rows with a missing value; with 10 or more the size check passes
and a result is returned (the statistical backend is modelled total, so no
other failure arises). In particular 9 aligned rows raise and 10 do not. -/
theorem claim_C1_size_floor (backend : Backend) (sl : ℚ)
    (rows : List (Timestamp × Option ℚ × Option ℚ)) (s1 s2 : String) :
    ((∃ r, test_cointegration backend sl rows s1 s2 = Except.ok r) ↔
      10 ≤ (dropna rows).length) ∧
    ((test_cointegration backend sl rows s1 s2 =
      Except.error (AnalysisError.insufficientData
        "Insufficient data points for cointegration test")) ↔
      (dropna rows).length < 10) := by
  by_cases h : (dropna rows).length < 10
  · simp only [test_cointegration, if_pos h]
    constructor
    · constructor
      · rintro ⟨r, hr⟩
        exact absurd hr (by simp)
      · intro hge
        omega
    · simp [h]
  · simp only [test_cointegration, if_neg h]
    constructor
    · constructor
      · intro _
        omega
      · intro _
        exact ⟨_, rfl⟩
    · constructor
      · intro hr
        exact absurd hr (by simp)
      · intro hlt
        omega

/-- C2: `analyze_pairs` attempts exactly the `C(N,2)` unordered column
pairs, in the fixed order `(col_i, col_j)` for positions `i < j` (shown
equal to the index-based `pairsSpec` enumeration), returns the successful
results in exactly that enumeration order, and returns no results (and no
error — the function is total) for fewer than two columns. -/
theorem claim_C2_pair_enumeration (backend : Backend) (sl : ℚ)
    (pm : PriceMatrix) (minObs : Nat) :
    ((combinations2 pm.cols).map (fun p => (p.1.1, p.2.1)) =
        pairsSpec (pm.cols.map Prod.fst)) ∧
    (combinations2 pm.cols).length = pm.cols.length * (pm.cols.length - 1) / 2 ∧
    (analyze_pairs backend sl pm minObs).results =
        (combinations2 pm.cols).filterMap
          (fun p => (pairTest backend sl pm.index p).toOption) ∧
    (pm.cols.length < 2 → (analyze_pairs backend sl pm minObs).results = []) := by
  have hres : (analyze_pairs backend sl pm minObs).results =
      (combinations2 pm.cols).filterMap
        (fun p => (pairTest backend sl pm.index p).toOption) := by
    simp [analyze_pairs, analyzeLoop_eq]
  refine ⟨?_, ?_, hres, ?_⟩
  · rw [← combinations2_map, combinations2_eq_pairsSpec]
  · rw [combinations2_length_choose, Nat.choose_two_right]
  · intro h
    rw [hres, combinations2_nil_of_short pm.cols (by simpa using h)]
    rfl

/-- C3: a failing pair never aborts the batch: `analyze_pairs` returns
exactly the successful results of all pairs (in enumeration order), and for
every pair whose test raises, a line recording both symbol names and the
reason is printed, while the remaining pairs are still processed. -/
theorem claim_C3_batch_isolation (backend : Backend) (sl : ℚ)
    (pm : PriceMatrix) (minObs : Nat) :
    ((analyze_pairs backend sl pm minObs).results =
        (combinations2 pm.cols).filterMap
          (fun p => (pairTest backend sl pm.index p).toOption)) ∧
    ((analyze_pairs backend sl pm minObs).printed =
        (combinations2 pm.cols).filterMap (fun p =>
          match pairTest backend sl pm.index p with
          | Except.ok _ => none
          | Except.error e => some (failLine p.1.1 p.2.1 e.message))) ∧
    (∀ p ∈ combinations2 pm.cols, ∀ e,
      pairTest backend sl pm.index p = Except.error e →
        failLine p.1.1 p.2.1 e.message ∈ (analyze_pairs backend sl pm minObs).printed) := by
  have hprint : (analyze_pairs backend sl pm minObs).printed =
      (combinations2 pm.cols).filterMap (fun p =>
        match pairTest backend sl pm.index p with
        | Except.ok _ => none
        | Except.error e => some (failLine p.1.1 p.2.1 e.message)) := by
    simp [analyze_pairs, analyzeLoop_eq]
  refine ⟨by simp [analyze_pairs, analyzeLoop_eq], hprint, ?_⟩
  intro p hp e he
  rw [hprint]
  refine List.mem_filterMap.mpr ⟨p, hp, ?_⟩
  rw [he]

/-- C8 counterexample: the constructor accepts a significance level of
`2`, which lies outside `(0, 1)`, without raising any error. -/
theorem claim_C8_out_of_range_accepted :
    CointegrationAnalyzer.init true 2 =
      Except.ok { significance_level := 2 } := by
  rfl

/-- C8 (amended): construction fails when the statistical backend is
unavailable, but the significance level itself is stored without any
validation — every value, in range or not, is accepted. -/
theorem claim_C8_init_validation (sl : ℚ) :
    CointegrationAnalyzer.init true sl = Except.ok { significance_level := sl } ∧
    (∃ msg, CointegrationAnalyzer.init false sl =
      Except.error (InitError.importError msg)) := by
  exact ⟨rfl, ⟨_, rfl⟩⟩

/-- C10: passing the explicit threshold `0.0` to the filter behaves exactly
like passing no threshold: Python's truthiness-based `or` makes the zero
threshold fall back to the configured significance level. -/
theorem claim_C10_zero_threshold_fallback (sl : ℚ)
    (results : List CointegrationResult) :
    filter_cointegrated_pairs sl results (some 0) =
      filter_cointegrated_pairs sl results none := by
  simp [filter_cointegrated_pairs]

/-- C4 counterexample: with the explicit threshold `0.0` the filter does
not return the subset with `p_value < 0` (which would be empty): the zero
threshold falls back to the significance level and the result with
p-value `0` (below the fallback significance level `1`) is kept. -/
theorem claim_C4_zero_threshold_cex :
    filter_cointegrated_pairs 1 [mkRes "A" "B" 0] (some 0) =
      [mkRes "A" "B" 0] ∧
    ¬ ((mkRes "A" "B" 0).p_value < 0) := by
  exact ⟨by decide, by decide⟩

/-- C4 (amended): for no threshold, or any explicit nonzero threshold, the
filter returns exactly the subset with `p_value` below the effective
threshold, sorted ascending by `p_value` with ties in original order; an
explicit threshold of `0.0` is excluded because Python's falsy `or` makes
it fall back to the significance level. -/
theorem claim_C4_filter_by_pvalue (sl : ℚ) (results : List CointegrationResult)
    (tOpt : Option ℚ) (h : tOpt ≠ some 0) : filterSpecHolds sl results tOpt := by
  cases tOpt with
  | none =>
    exact ⟨sortByKey_perm _ _, sortByKey_pairwise _ _,
      fun v => sortByKey_filter_key _ _ v⟩
  | some t =>
    have ht : t ≠ 0 := fun h0 => h (by rw [h0])
    simp only [filterSpecHolds, filter_cointegrated_pairs, if_neg ht,
      Option.getD_some]
    exact ⟨sortByKey_perm _ _, sortByKey_pairwise _ _,
      fun v => sortByKey_filter_key _ _ v⟩

/-- C4 witness: the amended filter property at a concrete threshold and
two concrete results. -/
theorem claim_C4_filter_by_pvalue_witness :
    filterSpecHolds 1 [mkRes "A" "B" 3, mkRes "C" "D" 1] (some 2) :=
  claim_C4_filter_by_pvalue 1
    [mkRes "A" "B" 3, mkRes "C" "D" 1] (some 2) (by decide)

/-- C5: every successful `test_cointegration` call returns the spread
`series1 − hedge_ratio·series2` over the aligned index, whose index is a
subsequence of the input index and whose values are all present, with the
hedge ratio equal to the intercept-model OLS slope (characterized by the
normal equations when the system is nonsingular). -/
theorem claim_C5_spread_and_hedge (backend : Backend) (sl : ℚ)
    (rows : List (Timestamp × Option ℚ × Option ℚ)) (s1 s2 : String)
    (r : CointegrationResult)
    (h : test_cointegration backend sl rows s1 s2 = Except.ok r) :
    testPairSpreadSpec rows r := by
  simp only [test_cointegration] at h
  by_cases hlen : (dropna rows).length < 10
  · rw [if_pos hlen] at h
    exact absurd h (by simp)
  · rw [if_neg hlen] at h
    have hr := Except.ok.inj h
    subst hr
    refine ⟨rfl, dropna_index_sublist rows, rfl, ?_⟩
    intro hd
    have hlen2 : (y2of rows).length = (y1of rows).length := by
      simp [y1of, y2of]
    exact olsSlope_normal_equations (y2of rows) (y1of rows) hlen2 hd

/-- C5 witness: the spread specification holds of the concrete result of
testing ten rows with `series1 = 2·series2`. -/
theorem claim_C5_spread_and_hedge_witness : testPairSpreadSpec rowsW resW := by
  refine claim_C5_spread_and_hedge cBackend 1 rowsW "A" "B" resW ?_
  have hdrop : dropna rowsW =
      [(0, 2, 1), (1, 4, 2), (2, 6, 3), (3, 8, 4), (4, 10, 5), (5, 12, 6),
       (6, 14, 7), (7, 16, 8), (8, 18, 9), (9, 20, 10)] := rfl
  have h10 : ¬ ((dropna rowsW).length < 10) := by
    rw [hdrop]
    decide
  have hslope : olsSlope [1, 2, 3, 4, 5, 6, 7, 8, 9, 10]
      [2, 4, 6, 8, 10, 12, 14, 16, 18, 20] = 2 := by
    norm_num [olsSlope, olsDenom, prodSum, List.zip_cons_cons]
  simp only [test_cointegration]
  rw [if_neg h10, hdrop]
  simp only [List.map_cons, List.map_nil]
  rw [hslope]
  simp only [cBackend, resW, Except.ok.injEq, CointegrationResult.mk.injEq,
    CriticalValues.mk.injEq]
  norm_num

/-- C6 counterexample: on a constant (zero-variance) spread the function
returns a statistics dictionary whose z-score is NaN — it does not signal
any error (its return type has no error outcome at all). -/
theorem claim_C6_degenerate_returns_nan :
    get_spread_statistics resConst = some
      { mean := some 5, std2 := some 0, min := some 5, max := some 5,
        current := some 5, z_score := ZVal.nan } := by
  norm_num [get_spread_statistics, resConst, mkRes, listMean, sampleVar,
    listMin, listMax, floatDiv, SpreadStats.mk.injEq]

/-- C6 (amended): on a present non-empty spread, `get_spread_statistics`
returns mean, sample (not population) standard deviation, min, max, the
last value and `z_score = (last − mean)/std`; on an empty or zero-variance
spread the z-score is NaN (and the std itself NaN below two observations)
— returned silently inside the dictionary, with no error signalled. -/
theorem claim_C6_spread_statistics (r : CointegrationResult)
    (s : List (Timestamp × ℚ)) (h1 : r.spread_series = some s) (h2 : s ≠ []) :
    spreadStatsSpec r s := by
  have hvals : spreadVals s ≠ [] := by
    simpa [spreadVals] using h2
  have hget : get_spread_statistics r = some
      { mean := listMean (spreadVals s)
        std2 := sampleVar (spreadVals s)
        min := listMin (spreadVals s)
        max := listMax (spreadVals s)
        current := (spreadVals s).getLast?
        z_score :=
          match (spreadVals s).getLast?, listMean (spreadVals s) with
          | some last, some m => floatDiv (last - m) (sampleVar (spreadVals s))
          | _, _ => ZVal.nan } := by
    simp only [get_spread_statistics, h1]
    rfl
  have hmean : listMean (spreadVals s) =
      some ((spreadVals s).sum / ((spreadVals s).length : ℚ)) := by
    simp [listMean, hvals]
  obtain ⟨last, hlast⟩ : ∃ a, (spreadVals s).getLast? = some a := by
    cases hgl : (spreadVals s).getLast? with
    | none => exact absurd (List.getLast?_eq_none_iff.mp hgl) hvals
    | some a => exact ⟨a, rfl⟩
  refine ⟨_, hget, hmean, ?_, ?_, ?_, rfl, ?_, ?_⟩
  · intro hl2
    have : 2 ≤ (spreadVals s).length := hl2
    exact sampleVar_eq (spreadVals s) this
  · exact listMin_spec (spreadVals s) hvals
  · exact listMax_spec (spreadVals s) hvals
  · intro l m hl hm
    have hm2 : listMean (spreadVals s) = some m := hm
    simp only [hl, hm2]
  · intro hv0
    have hv02 : sampleVar (spreadVals s) = some 0 := hv0
    simp only [hlast, hmean]
    have hlmem : last ∈ spreadVals s :=
      List.mem_of_mem_getLast? (by rw [hlast]; rfl)
    have hlm : last = (spreadVals s).sum / ((spreadVals s).length : ℚ) :=
      sampleVar_zero_all_eq_mean (spreadVals s) hv02 last hlmem
    rw [hv02, ← hlm]
    simp [floatDiv]

/-- C6 witness: the statistics specification at a concrete three-point
spread. -/
theorem claim_C6_spread_statistics_witness : spreadStatsSpec resW6 spreadW :=
  claim_C6_spread_statistics resW6 spreadW rfl (by decide)

/-- C7 counterexample: an empty result list yields the bare
`pd.DataFrame()` — zero rows but also zero columns — so the claimed "full
expected column set" is absent. -/
theorem claim_C7_empty_report_no_columns :
    (create_summary_report 1 [] false).columns = [] ∧ summaryColumns ≠ [] := by
  exact ⟨rfl, by decide⟩

/-- C7 (amended): the report has one row per (cointegrated-only unless
`include_all`) result, with the symbol, p-value, statistic, hedge-ratio,
flag and critical-value columns, rows sorted ascending by p-value, and is
produced without error for every input; when the filtered list is empty
(empty input or no cointegrated pairs) the table is completely empty:
zero rows and, unlike the original claim, also zero columns. -/
theorem claim_C7_summary_report_shape (sl : ℚ)
    (results : List CointegrationResult) (include_all : Bool) :
    (create_summary_report sl results include_all).rows.Perm
        ((summaryInput sl results include_all).map resultToRow) ∧
    (create_summary_report sl results include_all).rows.Pairwise
        (fun a b => a.P_Value ≤ b.P_Value) ∧
    (create_summary_report sl results include_all).rows.length =
        (summaryInput sl results include_all).length ∧
    (create_summary_report sl results include_all).columns =
        (if (summaryInput sl results include_all).isEmpty then []
         else summaryColumns) := by
  by_cases h : (summaryInput sl results include_all).isEmpty
  · have hnil : summaryInput sl results include_all = [] :=
      List.isEmpty_iff.mp h
    simp [create_summary_report, hnil]
  · simp only [create_summary_report, h, if_neg, Bool.false_eq_true,
      if_false]
    refine ⟨sortByKey_perm _ _, sortByKey_pairwise _ _, ?_, ?_⟩
    · rw [(sortByKey_perm _ _).length_eq, List.length_map]
    · simp [h]

/-- C9 counterexample: on the concrete matrix `pmW` two pairs fail, yet the
value returned to the caller is only the single successful result — the
skipped pairs and their reasons appear solely in the printed console
lines, a side channel outside the return value. -/
theorem claim_C9_only_side_channel :
    ((analyze_pairs cBackend 1 pmW 50).results.map
        (fun r => (r.symbol1, r.symbol2))) = [("A", "B")] ∧
    (analyze_pairs cBackend 1 pmW 50).printed =
      ["Error testing A-C: Insufficient data points for cointegration test",
       "Error testing B-C: Insufficient data points for cointegration test"] := by
  exact ⟨by decide, by decide⟩

/-- C9 (amended): batch callers receive only the successful results —
every returned element is the output of some attempted pair's test — and
the skipped pairs, with both symbol names and the reason, are reported
only through the printed output, which is a console side channel and not
part of the return value. -/
theorem claim_C9_failure_reporting (backend : Backend) (sl : ℚ)
    (pm : PriceMatrix) (minObs : Nat) :
    (∀ r ∈ (analyze_pairs backend sl pm minObs).results,
      ∃ p ∈ combinations2 pm.cols, pairTest backend sl pm.index p = Except.ok r) ∧
    (∀ p ∈ combinations2 pm.cols, ∀ e,
      pairTest backend sl pm.index p = Except.error e →
        failLine p.1.1 p.2.1 e.message ∈
          (analyze_pairs backend sl pm minObs).printed) := by
  have hres : (analyze_pairs backend sl pm minObs).results =
      (combinations2 pm.cols).filterMap
        (fun p => (pairTest backend sl pm.index p).toOption) := by
    simp [analyze_pairs, analyzeLoop_eq]
  have hprint : (analyze_pairs backend sl pm minObs).printed =
      (combinations2 pm.cols).filterMap (fun p =>
        match pairTest backend sl pm.index p with
        | Except.ok _ => none
        | Except.error e => some (failLine p.1.1 p.2.1 e.message)) := by
    simp [analyze_pairs, analyzeLoop_eq]
  constructor
  · intro r hr
    rw [hres] at hr
    obtain ⟨p, hp, hpo⟩ := List.mem_filterMap.mp hr
    refine ⟨p, hp, ?_⟩
    cases hpt : pairTest backend sl pm.index p with
    | ok a =>
      rw [hpt] at hpo
      simp only [Except.toOption] at hpo
      rw [Option.some.inj hpo]
    | error e =>
      rw [hpt] at hpo
      simp [Except.toOption] at hpo
  · intro p hp e he
    rw [hprint]
    refine List.mem_filterMap.mpr ⟨p, hp, ?_⟩
    rw [he]

end Ibtest
